import Mathlib

/-!
Shallow embedding of the four MPI example programs in
`IRC140710/pre-study-skeleton/examples` (mpi_ring.c, mpi_pingpong.c,
mpi_deadlock.c, mpi_race_condition.c) and proofs of the spec's claims
about them.

Conventions of the embedding:
* Ranks, world sizes and iteration counts are `Nat`; C `int` data values
  are `Int` (world sizes are themselves C `int`s, so token arithmetic such
  as `42 + (N-1)` stays far below 2^31 for any launchable configuration
  and overflow plays no role).
* `MPI_Wtime` readings are modelled as explicit rational inputs `t0 t1 : ℚ`;
  C `double` arithmetic on them (subtraction, division by `2.0*iters`,
  scaling by `1e6`) is modelled exactly over `ℚ`, which agrees with IEEE
  semantics on every sign/zero question the claims ask.
* Blocking point-to-point communication is rendezvous (zero buffering):
  a `send` completes only together with the matching `recv`, which is the
  "no buffering capacity" channel of the spec's deadlock discussion.
* Program output is modelled as lists of message constructors carrying the
  printf payloads, and the process exit status as a `Nat`; a program that
  can never reach its `return` is given exit status `none : Option Nat`.
-/

/-! ### mpi_ring.c -/

/-- The initial token value rank 0 originates (mpi_ring.c line 12,
`token = 42`). -/
def ringInitialToken : Int := 42

/-- Token value sent onward by rank `r` in the ring.

From mpi_ring.c: rank 0 sends the initial token (lines 12-13); every rank
`r+1` first receives from rank `r` — whose `MPI_Send` to
`(r+1) % size` is the unique matching send for `r+1 < size` — then
executes `token += 1` and forwards the result (lines 17-19). -/
def ringSent : Nat → Int
  | 0 => ringInitialToken
  | r + 1 => ringSent r + 1

/-- Token value received by rank `r ≥ 1`: the value its predecessor
`r - 1` sent (mpi_ring.c line 17, `MPI_Recv(..., rank - 1, ...)`). -/
def ringReceived (r : Nat) : Int := ringSent (r - 1)

/-- The final token rank 0 receives back from rank `size - 1`
(mpi_ring.c line 14, `MPI_Recv(&token, ..., size - 1, ...)`). -/
def ringFinalToken (size : Nat) : Int := ringSent (size - 1)

/-- Exit status of the ring program as a function of world size.

For `size ≥ 2` every send has a matching receive waiting downstream, the
ring completes and `main` returns 0 (mpi_ring.c line 24).  For `size = 1`
rank 0's blocking `MPI_Send` to `(0+1) % 1 = 0` (line 13) has no posted
matching receive, so under the zero-buffering channel the process hangs
and never reaches `return`. -/
def ringExit (size : Nat) : Option Nat :=
  if 2 ≤ size then some 0 else none

/-! ### mpi_pingpong.c -/

/-- Point-to-point operations a rank performs, recorded as events. -/
inductive POp where
  | send (dest : Nat)
  | recv (src : Nat)
  deriving DecidableEq, Repr

/-- Messages the ping-pong program prints. -/
inductive PMsg where
  /-- `fprintf(stderr, "Need at least 2 ranks.\n")` (mpi_pingpong.c line 44). -/
  | needAtLeast2
  /-- `printf("PingPong: size=%d bytes, latency=%.3f us\n", ...)` (line 69). -/
  | result (sizeBytes : Nat) (latencyUs : ℚ)
  deriving DecidableEq

/-- The literal text of each printed message, as in the C format strings. -/
def PMsg.text : PMsg → String
  | .needAtLeast2 => "Need at least 2 ranks."
  | .result _ _ => "PingPong: size= bytes, latency= us"

/-- The fixed iteration count of the benchmark loop
(mpi_pingpong.c line 53, `int iters = 10000`). -/
def pingpongIters : Nat := 10000

/-- Average one-way latency in microseconds reported by the benchmark,
as a function of the two wall-clock readings: mpi_pingpong.c lines 64-66,
`elapsed = t1 - t0; latency = (elapsed / (2.0 * iters)) * 1e6`. -/
def pingpongLatencyUs (iters : Nat) (t0 t1 : ℚ) : ℚ :=
  ((t1 - t0) / (2 * (iters : ℚ))) * 1000000

/-- The initial message buffer: `MSG_SIZE` bytes all zero
(mpi_pingpong.c lines 50-51, `malloc(MSG_SIZE); memset(buf, 0, MSG_SIZE)`). -/
def pingpongInitBuf (msgSize : Nat) : List Nat := List.replicate msgSize 0

/-- One iteration of the exchange loop acting on the two ranks' buffers
(mpi_pingpong.c lines 55-63): rank 0 sends its buffer, rank 1 receives it
into `buf` and sends its (now overwritten) buffer back, rank 0 receives it
into `buf`.  Returns the pair (rank 0's buffer, rank 1's buffer) after the
iteration. -/
def pingpongIter (b0 b1 : List Nat) : List Nat × List Nat :=
  let b1' := b0      -- line 60: rank 1's MPI_Recv overwrites its buffer
  let b0' := b1'     -- lines 61/58: rank 1 sends it back, rank 0 receives
  (b0', b1')

/-- Rank 0's buffer after `iters` iterations of the exchange loop, starting
from buffers `b0`, `b1`. -/
def pingpongBufAfter (b0 b1 : List Nat) : Nat → List Nat
  | 0 => b0
  | i + 1 =>
    let p := pingpongIter b0 b1
    pingpongBufAfter p.1 p.2 i

/-- The point-to-point operations rank `rank` performs in `iters` loop
iterations (mpi_pingpong.c lines 55-63): rank 0 sends to 1 then receives
from 1, rank 1 receives from 0 then sends to 0, every other rank's loop
body is empty. -/
def pingpongLoopOps (rank : Nat) : Nat → List POp
  | 0 => []
  | i + 1 =>
    pingpongLoopOps rank i ++
      (if rank = 0 then [POp.send 1, POp.recv 1]
       else if rank = 1 then [POp.recv 0, POp.send 0]
       else [])

/-- Result of one rank's run of a program: communication events, stdout
and stderr message lists, and the exit status. -/
structure RunResult where
  ops : List POp
  out : List PMsg
  err : List PMsg
  exitCode : Nat
  deriving DecidableEq

/-- One rank's execution of mpi_pingpong.c `main`, as a function of its
rank, the world size, the wall-clock readings `t0`, `t1` and the
compile-time `MSG_SIZE` (default 8, lines 33-35).

Lines 43-47: if `size < 2`, rank 0 prints the diagnostic to stderr, and
every rank finalizes and returns 1 before any send or receive.
Otherwise lines 49-74: the exchange loop runs `pingpongIters` times,
rank 0 prints the result line, and every rank returns 0. -/
def pingpongMain (rank size msgSize : Nat) (t0 t1 : ℚ) : RunResult :=
  if size < 2 then
    { ops := []
      out := []
      err := if rank = 0 then [PMsg.needAtLeast2] else []
      exitCode := 1 }
  else
    { ops := pingpongLoopOps rank pingpongIters
      out :=
        if rank = 0 then
          [PMsg.result msgSize (pingpongLatencyUs pingpongIters t0 t1)]
        else []
      err := []
      exitCode := 0 }

/-- Exit status of the ping-pong program as a function of world size:
`size < 2` takes the guard (exit 1), otherwise ranks 0 and 1 exchange a
matched send/receive sequence, all other ranks idle, and every rank
reaches `return 0`. -/
def pingpongExit (size : Nat) : Option Nat :=
  some (pingpongMain 0 size 8 0 0).exitCode

/-! ### mpi_deadlock.c -/

/-- Exit status of the deadlock program as a function of world size.

mpi_deadlock.c lines 31-37: with `size != 2` the program prints a
diagnostic and returns 1.  With `size = 2` both ranks issue blocking
sends to each other before any receive (lines 47 and 59); under the
zero-buffering channel neither completes (proved below in
`deadlock_blocks_forever`), so `return 0` on line 69 is never reached. -/
def deadlockExit (size : Nat) : Option Nat :=
  if size = 2 then none else some 1

/-- Messages mpi_deadlock.c prints (the `printf` calls in `main`). -/
inductive DMsg where
  /-- `"Process %d starting..."` (line 39). -/
  | starting (rank : Nat)
  /-- `"Process %d: Attempting to send to process %d..."` (lines 43, 55). -/
  | attempting (rank : Nat)
  /-- `"Process %d: Send completed, now receiving..."` (lines 49, 61). -/
  | sendCompleted (rank : Nat)
  /-- `"Process %d: Received %d"` (lines 52, 64). -/
  | received (rank : Nat)
  /-- `"Process %d: Finalizing (this will never execute)"` (line 67). -/
  | finalizing (rank : Nat)
  deriving DecidableEq, Repr

/-- Operations of a deadlock-program rank, in program order. -/
inductive DOp where
  /-- Blocking `MPI_Send` of value `v` to rank `dest`. -/
  | send (dest : Nat) (v : Int)
  /-- Blocking `MPI_Recv` from rank `src`. -/
  | recv (src : Nat)
  /-- A `printf`. -/
  | output (m : DMsg)
  /-- `MPI_Finalize` (collective: both ranks must reach it together). -/
  | fin
  deriving DecidableEq, Repr

/-- The remaining operation lists of rank 0 and rank 1. -/
abbrev DState := List DOp × List DOp

/-- Rank 0's program in mpi_deadlock.c for `size = 2` (lines 39-69):
print, print, blocking send to 1, print, blocking receive from 1, print,
print, finalize. -/
def deadlockProg0 : List DOp :=
  [DOp.output (DMsg.starting 0), DOp.output (DMsg.attempting 0),
   DOp.send 1 42, DOp.output (DMsg.sendCompleted 0), DOp.recv 1,
   DOp.output (DMsg.received 0), DOp.output (DMsg.finalizing 0), DOp.fin]

/-- Rank 1's program in mpi_deadlock.c for `size = 2` (lines 39-69). -/
def deadlockProg1 : List DOp :=
  [DOp.output (DMsg.starting 1), DOp.output (DMsg.attempting 1),
   DOp.send 0 42, DOp.output (DMsg.sendCompleted 1), DOp.recv 0,
   DOp.output (DMsg.received 1), DOp.output (DMsg.finalizing 1), DOp.fin]

/-- Rendezvous (zero-buffering) small-step semantics for the two ranks.

A print is a local step; a blocking `send` completes only simultaneously
with the peer's matching `recv` (the channel has no buffering capacity,
so a send cannot complete before its receive is posted); `fin` is a
collective both ranks take together. -/
inductive DStep : DState → DState → Prop
  | print0 (m : DMsg) (p q : List DOp) :
      DStep (DOp.output m :: p, q) (p, q)
  | print1 (m : DMsg) (p q : List DOp) :
      DStep (p, DOp.output m :: q) (p, q)
  | comm01 (v : Int) (p q : List DOp) :
      DStep (DOp.send 1 v :: p, DOp.recv 0 :: q) (p, q)
  | comm10 (v : Int) (p q : List DOp) :
      DStep (DOp.recv 1 :: p, DOp.send 0 v :: q) (p, q)
  | finBoth (p q : List DOp) :
      DStep (DOp.fin :: p, DOp.fin :: q) (p, q)

/-- Reachability: reflexive-transitive closure of `DStep` from the
initial state where both ranks are at the top of their programs. -/
def DReach (s : DState) : Prop :=
  Relation.ReflTransGen DStep (deadlockProg0, deadlockProg1) s

/-- The state in which both ranks have printed their two messages and are
blocked at their mutual blocking sends (lines 47 and 59). -/
def deadlockBlocked : DState :=
  (deadlockProg0.drop 2, deadlockProg1.drop 2)

/-! ### mpi_race_condition.c -/

/-- `#define NUM_INCREMENTS 1000` (mpi_race_condition.c line 23). -/
def NUM_INCREMENTS : Nat := 1000

/-- Value rank `r` reads from the shared counter in a get epoch
(mpi_race_condition.c lines 144-148): the `MPI_Get`s of all ranks sit in
the same fence epoch, in which no put is issued, so every rank reads the
current counter value. -/
def raceGet (N : Nat) (counter : Int) (_r : Fin N) : Int := counter

/-- Rank `r`'s local value after the increment
(mpi_race_condition.c line 154, `local_value++`). -/
def raceLocal (N : Nat) (counter : Int) (r : Fin N) : Int :=
  raceGet N counter r + 1

/-- The shared counter after a put epoch (mpi_race_condition.c
lines 155-157): every rank puts its local value to the same location in
one fence epoch; whichever rank `w`'s put lands last determines the
stored value. -/
def racePutEpoch (N : Nat) (counter : Int) (w : Fin N) : Int :=
  raceLocal N counter w

/-- The shared counter (initially 0, line 128) after `k` iterations of
the fenced get/increment/put loop (lines 142-163) run by all `N` ranks in
lockstep — the fences are collective, so the ranks pass through the same
epochs together.  `w i` chooses which rank's put lands last in
iteration `i`. -/
def raceCounter (N : Nat) (w : Nat → Fin N) : Nat → Int
  | 0 => 0
  | k + 1 => racePutEpoch N (raceCounter N w k) (w k)

/-- Messages the final-result block of mpi_race_condition.c prints. -/
inductive RMsg where
  /-- `"Final counter value: %d (expected: %d)"` (line 170). -/
  | finalValue (actual expected : Int)
  /-- `"RACE CONDITION DETECTED! Lost updates: %d"` (line 174). -/
  | raceDetected (lost : Int)
  /-- `"No race detected in this run (but race still exists!)"` (line 177). -/
  | noRace
  deriving DecidableEq, Repr

/-- Rank 0's final report (mpi_race_condition.c lines 168-179) and the
program's exit status (line 188, `return 0`): the counter comparison only
chooses which diagnostic is printed and never changes the return value. -/
def raceReport (actual expected : Int) : List RMsg × Nat :=
  ([RMsg.finalValue actual expected] ++
     (if actual ≠ expected then [RMsg.raceDetected (expected - actual)]
      else [RMsg.noRace]),
   0)

/-- Exit status of the race program: it has no rank-count guard and every
path through `main` ends in `return 0` (line 188). -/
def raceExit (_size : Nat) : Option Nat := some 0

/-! ### Helper lemmas -/

lemma ringSent_eq (r : Nat) : ringSent r = 42 + (r : Int) := by
  induction r with
  | zero => rfl
  | succ n ih => simp [ringSent, ih]; ring

lemma pingpongLoopOps_other {rank : Nat} (h0 : rank ≠ 0) (h1 : rank ≠ 1) :
    ∀ n, pingpongLoopOps rank n = [] := by
  intro n
  induction n with
  | zero => rfl
  | succ k ih => simp [pingpongLoopOps, ih, h0, h1]

lemma pingpongBufAfter_eq (b0 : List Nat) :
    ∀ (n : Nat) (b1 : List Nat), pingpongBufAfter b0 b1 n = b0
  | 0, _ => rfl
  | n + 1, _ => pingpongBufAfter_eq b0 n b0

lemma raceCounter_eq (N : Nat) (w : Nat → Fin N) (k : Nat) :
    raceCounter N w k = (k : Int) := by
  induction k with
  | zero => rfl
  | succ n ih =>
    simp [raceCounter, racePutEpoch, raceLocal, raceGet, ih]

/-! ### Claims -/

/-- C1: for every world size `N ≥ 2`, rank 0's final received token in the
ring equals `(N - 1)` plus the initial token value, and every intermediate
rank `i` (`1 ≤ i ≤ N - 1`) forwards a token equal to the value it received
plus 1. -/
theorem ring_correct (N : Nat) (hN : 2 ≤ N) :
    ringFinalToken N = ringInitialToken + ((N : Int) - 1) ∧
    ∀ i : Nat, 1 ≤ i → i ≤ N - 1 → ringSent i = ringReceived i + 1 := by
  constructor
  · unfold ringFinalToken ringInitialToken
    rw [ringSent_eq]
    have h : ((N - 1 : Nat) : Int) = (N : Int) - 1 := by omega
    rw [h]
  · intro i h1 _
    match i, h1 with
    | j + 1, _ => simp [ringSent, ringReceived]

theorem ring_correct_witness :
    ringFinalToken 3 = ringInitialToken + ((3 : Int) - 1) ∧
    ringSent 1 = ringReceived 1 + 1 :=
  ⟨(ring_correct 3 (by decide)).1,
   (ring_correct 3 (by decide)).2 1 (by decide) (by decide)⟩

/-- C2: launched with world size 1, the ping-pong program performs no send
or receive operation, prints the "Need at least 2 ranks." diagnostic
(containing the words "need at least 2"), and exits with code 1. -/
theorem pingpong_guard_world1 :
    (pingpongMain 0 1 8 0 0).ops = [] ∧
    (pingpongMain 0 1 8 0 0).err = [PMsg.needAtLeast2] ∧
    PMsg.text PMsg.needAtLeast2 = "Need at least 2 ranks." ∧
    (pingpongMain 0 1 8 0 0).exitCode = 1 :=
  ⟨rfl, rfl, rfl, rfl⟩

/-- C5: the benchmark's iteration count is the fixed 10000, and the
average one-way latency it reports (in microseconds) equals the elapsed
wall-clock time `t1 - t0` divided by `2 × iterations`: dividing the
reported number by `10^6` (the unit conversion it applies) gives exactly
`(t1 - t0) / (2 * iters)`. -/
theorem pingpong_latency_formula :
    pingpongIters = 10000 ∧
    ∀ t0 t1 : ℚ, pingpongLatencyUs pingpongIters t0 t1 / 1000000 =
      (t1 - t0) / (2 * (pingpongIters : ℚ)) := by
  refine ⟨rfl, fun t0 t1 => ?_⟩
  unfold pingpongLatencyUs pingpongIters
  push_cast
  ring

/-- C10: for every world size `N ≥ 3`, every rank other than 0 and 1
performs no send or receive in the exchange loop and completes normally
with exit code 0. -/
theorem pingpong_idle_ranks (size rank msgSize : Nat) (t0 t1 : ℚ)
    (hsize : 3 ≤ size) (h2 : 2 ≤ rank) (hlt : rank < size) :
    (pingpongMain rank size msgSize t0 t1).ops = [] ∧
    (pingpongMain rank size msgSize t0 t1).exitCode = 0 := by
  have h0 : rank ≠ 0 := by omega
  have h1 : rank ≠ 1 := by omega
  have hs : ¬ size < 2 := by omega
  unfold pingpongMain
  simp [hs, pingpongLoopOps_other h0 h1]

theorem pingpong_idle_ranks_witness :
    (pingpongMain 2 3 8 0 0).ops = [] ∧
    (pingpongMain 2 3 8 0 0).exitCode = 0 :=
  pingpong_idle_ranks 3 2 8 0 0 (by decide) (by decide) (by decide)

/-- C7: after `N ≥ 1` ranks each perform `K` fenced get/increment/put
iterations, the final shared counter is at most `N * K`, whichever rank's
put lands last in each epoch. -/
theorem race_counter_upper_bound (N K : Nat) (hN : 1 ≤ N) (w : Nat → Fin N) :
    raceCounter N w K ≤ (N : Int) * K := by
  rw [raceCounter_eq]
  have h1 : (1 : Int) ≤ (N : Int) := by exact_mod_cast hN
  have h2 : (0 : Int) ≤ (K : Int) := Int.ofNat_nonneg K
  nlinarith

theorem race_counter_upper_bound_witness :
    raceCounter 2 (fun _ => (0 : Fin 2)) 3 ≤ (2 : Int) * 3 :=
  race_counter_upper_bound 2 3 (by decide) (fun _ => (0 : Fin 2))

/-- C8: the race program's final report compares expected with actual; a
mismatch is reported only as the RACE-CONDITION diagnostic print (and
equality as the no-race print), while the exit status is 0 in both
cases. -/
theorem race_report_exit_code (actual expected : Int) :
    (raceReport actual expected).2 = 0 ∧
    (RMsg.raceDetected (expected - actual) ∈ (raceReport actual expected).1
      ↔ actual ≠ expected) ∧
    (RMsg.noRace ∈ (raceReport actual expected).1 ↔ actual = expected) := by
  unfold raceReport
  by_cases h : actual = expected <;> simp [h]

/-- C9: with world size 1 there is a single rank, the final counter equals
`NUM_INCREMENTS = 1000` exactly, and the report prints the no-race
message. -/
theorem race_world1_exact (w : Nat → Fin 1) :
    raceCounter 1 w NUM_INCREMENTS = 1000 ∧
    (raceReport (raceCounter 1 w NUM_INCREMENTS)
        ((NUM_INCREMENTS : Int) * 1)).1 =
      [RMsg.finalValue 1000 1000, RMsg.noRace] := by
  have h := raceCounter_eq 1 w NUM_INCREMENTS
  rw [NUM_INCREMENTS] at h ⊢
  refine ⟨by rw [h]; norm_num, ?_⟩
  rw [h]
  norm_num [raceReport]

theorem race_world1_exact_witness :
    raceCounter 1 (fun _ => (0 : Fin 1)) NUM_INCREMENTS = 1000 ∧
    (raceReport (raceCounter 1 (fun _ => (0 : Fin 1)) NUM_INCREMENTS)
        ((NUM_INCREMENTS : Int) * 1)).1 =
      [RMsg.finalValue 1000 1000, RMsg.noRace] :=
  race_world1_exact (fun _ => (0 : Fin 1))

/-- C3 counterexample: the claim "exit code 1 arises only from an
insufficient-rank-count guard failure" is false — the deadlock program
launched with world size 3 exits with code 1 (its guard demands exactly 2
ranks), yet 3 ranks are not insufficient (not fewer than the 2 the
communication pattern uses). -/
theorem exit_code_counterexample : deadlockExit 3 = some 1 ∧ ¬ (3 < 2) := by
  decide

/-- C3 amended: every program that completes normally exits with code 0,
and exit code 1 arises only from a rank-count guard failure — the
ping-pong guard fires exactly when the rank count is insufficient
(`size < 2`), while the deadlock program requires exactly 2 ranks and so
also exits 1 on any surplus (`size ≠ 2`); the ring and race programs
never exit 1. -/
theorem exit_codes_amended (size : Nat) (hsize : 1 ≤ size) :
    (pingpongExit size = some 1 ↔ size < 2) ∧
    (pingpongExit size = some 0 ↔ 2 ≤ size) ∧
    (deadlockExit size = some 1 ↔ size ≠ 2) ∧
    (ringExit size = some 0 ↔ 2 ≤ size) ∧
    ringExit size ≠ some 1 ∧
    raceExit size = some 0 := by
  unfold pingpongExit pingpongMain deadlockExit ringExit raceExit
  by_cases h2 : size = 2
  · subst h2; simp
  · by_cases h : size < 2 <;> simp [h, h2] <;> omega

theorem exit_codes_amended_witness :
    (pingpongExit 3 = some 1 ↔ 3 < 2) ∧
    (pingpongExit 3 = some 0 ↔ 2 ≤ 3) ∧
    (deadlockExit 3 = some 1 ↔ 3 ≠ 2) ∧
    (ringExit 3 = some 0 ↔ 2 ≤ 3) ∧
    ringExit 3 ≠ some 1 ∧
    raceExit 3 = some 0 :=
  exit_codes_amended 3 (by decide)

/-- C4 counterexample: the claim "the reported latency is strictly greater
than 0" is false — in a run whose two `MPI_Wtime` readings coincide
(e.g. both 0, as happens when the clock's resolution exceeds the loop's
duration) the program reports latency exactly 0. -/
theorem pingpong_latency_zero_counterexample :
    pingpongLatencyUs pingpongIters 0 0 = 0 ∧
    ¬ 0 < pingpongLatencyUs pingpongIters 0 0 := by
  norm_num [pingpongLatencyUs]

/-- C4 amended: for every buffer size `S` and iteration count `I ≥ 1`, a
completed ping-pong run leaves rank 0's message buffer bit-identical to
the buffer originally sent (whatever rank 1's buffer held), and with
monotone clock readings the reported latency is nonnegative — strictly
positive exactly when the wall clock advanced between the two readings. -/
theorem pingpong_buffer_and_latency (S I : Nat) (b1 : List Nat) (t0 t1 : ℚ)
    (hI : 1 ≤ I) (h : t0 ≤ t1) :
    pingpongBufAfter (pingpongInitBuf S) b1 I = pingpongInitBuf S ∧
    0 ≤ pingpongLatencyUs I t0 t1 ∧
    (0 < pingpongLatencyUs I t0 t1 ↔ t0 < t1) := by
  have hI' : (0 : ℚ) < (I : ℚ) := by exact_mod_cast hI
  have hden : (0 : ℚ) < 2 * (I : ℚ) := by linarith
  have hk : (0 : ℚ) < 1000000 / (2 * (I : ℚ)) := div_pos (by norm_num) hden
  have heq : pingpongLatencyUs I t0 t1 =
      (t1 - t0) * (1000000 / (2 * (I : ℚ))) := by
    unfold pingpongLatencyUs; ring
  refine ⟨pingpongBufAfter_eq _ I b1, ?_, ?_⟩
  · rw [heq]
    exact mul_nonneg (by linarith) hk.le
  · rw [heq, mul_pos_iff_of_pos_right hk, sub_pos]

theorem pingpong_buffer_and_latency_witness :
    pingpongBufAfter (pingpongInitBuf 8) [1, 2, 3] 10000 = pingpongInitBuf 8 ∧
    0 ≤ pingpongLatencyUs 10000 0 1 ∧
    (0 < pingpongLatencyUs 10000 0 1 ↔ (0 : ℚ) < 1) :=
  pingpong_buffer_and_latency 8 10000 [1, 2, 3] 0 1 (by decide) (by norm_num)

/-! ### Deadlock lemmas -/

/-- Invariant of the deadlock system: neither rank ever advances past its
blocking send — every reachable state drops at most the two leading
prints from each program. -/
def DInv (s : DState) : Prop :=
  ∃ i, i ≤ 2 ∧ ∃ j, j ≤ 2 ∧
    s = (deadlockProg0.drop i, deadlockProg1.drop j)

lemma dinv_init : DInv (deadlockProg0, deadlockProg1) :=
  ⟨0, by omega, 0, by omega, rfl⟩

lemma no_step_two_sends (v w : Int) (p q : List DOp) (t : DState) :
    ¬ DStep (DOp.send 1 v :: p, DOp.send 0 w :: q) t := by
  intro h
  cases h

lemma dinv_step {s t : DState} (hs : DInv s) (h : DStep s t) : DInv t := by
  obtain ⟨i, hi, j, hj, rfl⟩ := hs
  interval_cases i <;> interval_cases j <;>
    simp only [deadlockProg0, deadlockProg1, List.drop_succ_cons,
      List.drop_zero] at h <;>
    cases h <;>
    first
      | exact ⟨0, by omega, 1, by omega, rfl⟩
      | exact ⟨0, by omega, 2, by omega, rfl⟩
      | exact ⟨1, by omega, 0, by omega, rfl⟩
      | exact ⟨1, by omega, 1, by omega, rfl⟩
      | exact ⟨1, by omega, 2, by omega, rfl⟩
      | exact ⟨2, by omega, 0, by omega, rfl⟩
      | exact ⟨2, by omega, 1, by omega, rfl⟩
      | exact ⟨2, by omega, 2, by omega, rfl⟩

lemma dinv_reach (s : DState) (h : DReach s) : DInv s := by
  induction h with
  | refl => exact dinv_init
  | tail _ hbc ih => exact dinv_step ih hbc

lemma reach_blocked : DReach deadlockBlocked :=
  Relation.ReflTransGen.head (DStep.print0 _ _ _)
    (Relation.ReflTransGen.head (DStep.print0 _ _ _)
      (Relation.ReflTransGen.head (DStep.print1 _ _ _)
        (Relation.ReflTransGen.head (DStep.print1 _ _ _)
          Relation.ReflTransGen.refl)))

lemma blocked_stuck (t : DState) : ¬ DStep deadlockBlocked t :=
  no_step_two_sends 42 42 _ _ t

/-- C6: with both ranks issuing their blocking sends to each other before
any receive over an unbuffered channel, the system reaches the state in
which both are blocked at their sends, that state has no successor, and
in every reachable state each rank's receive, its final prints and its
finalize are still pending (never executed) with its operation list
nonempty — permanent blocking of both processes, not termination. -/
theorem deadlock_blocks_forever (s : DState) (hs : DReach s) :
    DReach deadlockBlocked ∧
    (∀ t, ¬ DStep deadlockBlocked t) ∧
    DOp.recv 1 ∈ s.1 ∧ DOp.output (DMsg.finalizing 0) ∈ s.1 ∧
    DOp.fin ∈ s.1 ∧
    DOp.recv 0 ∈ s.2 ∧ DOp.output (DMsg.finalizing 1) ∈ s.2 ∧
    DOp.fin ∈ s.2 ∧
    s.1 ≠ [] ∧ s.2 ≠ [] := by
  obtain ⟨i, hi, j, hj, rfl⟩ := dinv_reach s hs
  refine ⟨reach_blocked, blocked_stuck, ?_, ?_, ?_, ?_, ?_, ?_, ?_, ?_⟩ <;>
    interval_cases i <;> interval_cases j <;> decide

theorem deadlock_blocks_forever_witness :
    DReach deadlockBlocked ∧
    (∀ t, ¬ DStep deadlockBlocked t) ∧
    DOp.recv 1 ∈ (deadlockProg0, deadlockProg1).1 ∧
    DOp.output (DMsg.finalizing 0) ∈ (deadlockProg0, deadlockProg1).1 ∧
    DOp.fin ∈ (deadlockProg0, deadlockProg1).1 ∧
    DOp.recv 0 ∈ (deadlockProg0, deadlockProg1).2 ∧
    DOp.output (DMsg.finalizing 1) ∈ (deadlockProg0, deadlockProg1).2 ∧
    DOp.fin ∈ (deadlockProg0, deadlockProg1).2 ∧
    (deadlockProg0, deadlockProg1).1 ≠ [] ∧
    (deadlockProg0, deadlockProg1).2 ≠ [] :=
  deadlock_blocks_forever (deadlockProg0, deadlockProg1)
    Relation.ReflTransGen.refl
